import Mathlib

/-!
Shallow embedding of `src/main.rs` of the `rust_highered_videoweb` crate.

The program is a four-stage pipeline (crawler CSV generation, page mirroring,
embedded-media extraction, media resolution/download).  Pure helpers
(`sanitize_folder_name`, `ensure_https_scheme`, filename derivation) are
translated directly.  External collaborators are modelled as explicit
parameters or small executable models, following the spec's own
collaborator boundary (§1 of the spec declares the tabular reader, the
filesystem, the HTML parser/selector engine and the HTTP client external):

* the `url` crate's `Url::parse` is modelled by `VideoWeb.Url.parse`,
  restricted to the behaviours the program exercises: WHATWG trimming of
  leading/trailing C0-control/space characters, literal lowercase
  `http://`/`https://` scheme recognition, host/path/query splitting, the
  `/` default path for special schemes, and the payload-free `ParseError`
  enum.  Ports, userinfo, percent-encoding, IDN/host case folding and
  non-http(s) schemes are not modelled (no claim exercises them);
* Rust's `regex` class `\w`/`\s` and `str::trim` are modelled for ASCII
  input via `Char.isAlphanum`/`Char.isWhitespace`;
* the filesystem is an explicit state (`VideoWeb.FS`) with
  creation-ordered directory and file listings (directory-listing order is
  platform-dependent in the real program; the spec's §5 notes this);
* the HTTP client is a parameter `Net`; every `reqwest::blocking::get`
  call is logged in a request list; `serde_json`'s `Value` is modelled by
  `VideoWeb.Json`;
* the HTML parser/selector engine is a parameter `HtmlEngine` whose
  `selectVideoIframe` is assumed to list matches in document order;
* the `csv` crate is modelled by `encodeCsv`/`decodeCsv`, restricted to
  fields free of commas, quotes and newlines (the only shapes the claims
  exercise);
* Rust panics (`unwrap` on `None`) and propagated `?` errors are both
  modelled as the `Except.error` outcome of the enclosing stage: both
  abort the stage (and the run) and leave remaining items unprocessed.
-/

namespace VideoWeb

/-! ## Basic string machinery (structural recursions, kernel-reducible) -/

/-- Splitting a character list on a single separator character.  Models
`String::splitOn`/`str::split` for a one-character separator; always
returns a non-empty list of chunks. -/
def splitOnChar (sep : Char) : List Char → List (List Char)
  | [] => [[]]
  | c :: rest =>
    let r := splitOnChar sep rest
    if c = sep then [] :: r
    else
      match r with
      | h :: t => (c :: h) :: t
      | [] => [[c]]

/-- Substring test: does `pat` occur contiguously inside `hay`?  Models
Rust's `str::contains` with a string pattern. -/
def containsSub (hay pat : List Char) : Bool :=
  match hay with
  | [] => pat.isEmpty
  | _ :: rest => pat.isPrefixOf hay || containsSub rest pat

/-- String-level wrapper for `containsSub`; models `src.contains("…")`. -/
def strContains (hay pat : String) : Bool :=
  containsSub hay.toList pat.toList

/-! ## Name sanitizer (`sanitize_folder_name`, main.rs lines 294–298) -/

/-- Characters that the regex `[^\w\s-]` does **not** delete: word
characters (`\w`, modelled for ASCII as alphanumeric or underscore),
whitespace (`\s`) and the hyphen. -/
def keepChar (c : Char) : Bool :=
  c.isAlphanum || c = '_' || c.isWhitespace || c = '-'

/-- Model of `sanitize_folder_name`: first `re.replace_all(name, "")` with
`re = [^\w\s-]` (a filter keeping exactly `keepChar`), then
`.replace(" ", "_")` (each literal space character, individually, becomes
one underscore; for a single-character pattern the replacement is a
character map). -/
def sanitize_folder_name (s : String) : String :=
  String.mk ((s.toList.filter keepChar).map (fun c => if c = ' ' then '_' else c))

/-- Model of Rust `str::trim` (used as `instnm_str.trim()`), for ASCII
whitespace. -/
def rustTrim (s : String) : String :=
  String.mk (((s.toList.dropWhile Char.isWhitespace).reverse.dropWhile
      Char.isWhitespace).reverse)

/-- Specification-shaped sanitizer for the amended claim C3: an explicit
removal pass (drop every character that is not alphanumeric, underscore,
hyphen or whitespace) followed by an explicit replacement pass (each
space character, individually, becomes one underscore). -/
def removeDisallowed : List Char → List Char
  | [] => []
  | c :: r => if keepChar c then c :: removeDisallowed r else removeDisallowed r

/-- Replacement pass of the amended claim C3. -/
def replaceSpaces : List Char → List Char
  | [] => []
  | c :: r => (if c = ' ' then '_' else c) :: replaceSpaces r

/-- The two passes composed, on strings. -/
def sanitizeAmended (s : String) : String :=
  String.mk (replaceSpaces (removeDisallowed s.toList))

/-! ## URL model (`url` crate, restricted; see module docstring) -/

/-- Model of `url::ParseError`: a payload-free error enum (the real enum
has more variants; these are the two the modelled inputs can produce).
Note that no variant carries the offending input string. -/
inductive ParseError where
  | relativeUrlWithoutBase
  | emptyHost
deriving DecidableEq, Repr

/-- Model of a parsed `url::Url` for the http/https special schemes. -/
structure Url where
  scheme : String
  host : String
  path : String
  query : Option String
deriving DecidableEq, Repr

/-- Characters stripped from both ends of the input by the WHATWG parser:
C0 controls and space. -/
def urlJunk (c : Char) : Bool := c.toNat ≤ 32

/-- Leading/trailing C0-control-or-space stripping performed by
`Url::parse` before parsing. -/
def trimJunk (l : List Char) : List Char :=
  ((l.dropWhile urlJunk).reverse.dropWhile urlJunk).reverse

/-- Characters ending the host component. -/
def isHostEnd (c : Char) : Bool := c = '/' || c = '?' || c = '#'

/-- Parsing of the part after a recognized `scheme://`:  host up to
`/`, `?` or `#` (empty host is `ParseError::EmptyHost`), then path
(defaulting to `/` for these special schemes), then optional query (the
fragment, if any, is dropped). -/
def parseAfterScheme (scheme : String) (rest : List Char) : Except ParseError Url :=
  let host := rest.takeWhile (fun c => !isHostEnd c)
  if host.isEmpty then .error .emptyHost
  else
    let tail := rest.dropWhile (fun c => !isHostEnd c)
    let path := tail.takeWhile (fun c => !(c = '?' || c = '#'))
    let afterPath := tail.dropWhile (fun c => !(c = '?' || c = '#'))
    let query : Option String :=
      match afterPath with
      | '?' :: qs => some (String.mk (qs.takeWhile (fun c => c ≠ '#')))
      | _ => none
    .ok { scheme := scheme, host := String.mk host,
          path := if path.isEmpty then "/" else String.mk path, query := query }

/-- Model of `Url::parse` (restricted as documented in the module
docstring): trim, recognize `https://` or `http://`, otherwise fail with
`RelativeUrlWithoutBase` (the scheme-less case). -/
def Url.parse (s : String) : Except ParseError Url :=
  let t := trimJunk s.toList
  if t.take 8 = "https://".toList then parseAfterScheme "https" (t.drop 8)
  else if t.take 7 = "http://".toList then parseAfterScheme "http" (t.drop 7)
  else .error .relativeUrlWithoutBase

/-- Model of `Url::as_str()`: the serialized form. -/
def Url.asStr (u : Url) : String :=
  u.scheme ++ "://" ++ u.host ++ u.path ++
    (match u.query with | none => "" | some q => "?" ++ q)

/-- Model of `Url::path_segments()` for http(s) URLs: the path after its
leading `/`, split on `/`.  Always a non-empty list (`splitOnChar` never
returns `[]`), so `.last().unwrap()` in the source is modelled by
`lastSegment`. -/
def Url.pathSegments (u : Url) : List String :=
  (splitOnChar '/' (u.path.toList.drop 1)).map String.mk

/-- Model of `Iterator::last().unwrap()` on the (never-empty) path
segments: the last element, with a default for the impossible empty
case. -/
def lastSegment : List String → String
  | [] => ""
  | [x] => x
  | _ :: y :: rest => lastSegment (y :: rest)

/-- Model of `ensure_https_scheme` (main.rs lines 277–286): strict parse,
and on failure one retry with the `https://` prefix prepended. -/
def ensure_https_scheme (s : String) : Except ParseError Url :=
  match Url.parse s with
  | .ok u => .ok u
  | .error _ => Url.parse ("https://" ++ s)

/-- Model of `Path::new(src).file_name()` for forward-slash paths: the
last component after splitting on `/`, ignoring empty and `.` components;
`None` when there is no component or the last one is `..`. -/
def pathFileName (s : String) : Option String :=
  let comps := (splitOnChar '/' s.toList).filter (fun c => !(c.isEmpty || c = ['.']))
  match comps.getLast? with
  | none => none
  | some x => if x = ['.', '.'] then none else some (String.mk x)

/-! ## JSON and HTTP collaborators -/

/-- Model of `serde_json::Value`. -/
inductive Json where
  | null
  | str (s : String)
  | num (n : Int)
  | boolean (b : Bool)
  | arr (elems : List Json)
  | obj (fields : List (String × Json))

/-- Model of `Value`'s string indexing `v["k"]`: field lookup on objects,
`Null` for a missing field or a non-object. -/
def Json.idx : Json → String → Json
  | .obj fields, k =>
    match fields.lookup k with
    | some v => v
    | none => .null
  | _, _ => .null

/-- Model of `Value::as_str()`. -/
def Json.asStr : Json → Option String
  | .str s => some s
  | _ => none

/-- Model of an HTTP response: `body` serves `.text()` and `.bytes()`
(string contents), `json` serves `.json()` (which can fail on a non-JSON
body). -/
structure HttpResp where
  body : String
  json : Except Unit Json

/-- Model of the blocking HTTP client: `reqwest::blocking::get` either
fails or yields a response. -/
def Net := String → Except Unit HttpResp

/-! ## HTML parser/selector collaborator -/

/-- Model of the `scraper` collaborator, as the three queries the program
makes of it.  `selectVideoIframe` models `select` with the
`"video, iframe"` selector and is assumed to return the matches' outer
HTML in document order; `firstVideoSrc`/`firstIframeSrc` model
`select(..).next()` with the `"video"` / `"iframe"` selector on a
fragment, returning `none` when there is no such element and
`some srcAttr` (the optional `src` attribute) for the first one. -/
structure HtmlEngine where
  selectVideoIframe : String → List String
  firstVideoSrc : String → Option (Option String)
  firstIframeSrc : String → Option (Option String)

/-! ## Filesystem state

The program only ever touches: the crawler CSV at a fixed path, the
output root, one directory per institution directly under the root, and
files directly inside those directories.  The state mirrors exactly that
shape; `dirs` and `files` are kept in creation order (modelling
directory-listing order, which the real program leaves to the platform).
-/

structure FS where
  rootExists : Bool
  crawler : Option String
  dirs : List String
  files : List (String × String × String)
deriving Repr

/-- Initial, empty filesystem (no crawler CSV, no output root). -/
def FS.empty : FS := ⟨false, none, [], []⟩

/-- Lookup of a file's contents by directory and filename. -/
def lookupEntries : List (String × String × String) → String → String → Option String
  | [], _, _ => none
  | (d', f', c') :: rest, d, f =>
    if d' = d && f' = f then some c' else lookupEntries rest d f

/-- Replacement of the first entry with the given key (used only under an
existence guard, mirroring `fs::write`'s truncate-and-rewrite). -/
def updateEntries : List (String × String × String) → String → String → String →
    List (String × String × String)
  | [], _, _, _ => []
  | (d', f', c') :: rest, d, f, c =>
    if d' = d && f' = f then (d', f', c) :: rest
    else (d', f', c') :: updateEntries rest d f c

def FS.lookupFile (fs : FS) (d f : String) : Option String :=
  lookupEntries fs.files d f

/-- Model of `Path::exists` for a file inside an institution directory. -/
def FS.fileExists (fs : FS) (d f : String) : Bool :=
  (fs.lookupFile d f).isSome

/-- Model of `Path::exists` for an institution directory. -/
def FS.dirExists (fs : FS) (d : String) : Bool :=
  fs.dirs.contains d

/-- Model of `fs::write`: create the file (appending to the listing) or
truncate and rewrite an existing one. -/
def FS.writeFile (fs : FS) (d f c : String) : FS :=
  if fs.fileExists d f then
    { fs with files := updateEntries fs.files d f c }
  else
    { fs with files := fs.files ++ [(d, f, c)] }

/-- Model of `fs::create_dir` for an institution directory. -/
def FS.createDir (fs : FS) (d : String) : FS :=
  { fs with dirs := fs.dirs ++ [d] }

/-- Files (name, contents) listed inside one institution directory, in
creation order.  Models `fs::read_dir` on a subdirectory. -/
def FS.filesIn (fs : FS) (d : String) : List (String × String) :=
  (fs.files.filter (fun e => e.1 = d)).map (fun e => (e.2.1, e.2.2))

/-! ## CSV collaborator (restricted: fields free of commas/quotes/newlines) -/

/-- Serialization the program writes to `resource/crawler.csv`: the
`WEBADDR,INSTNM` header line, then one `addr,name` line per record. -/
def encodeCsv (rows : List (String × String)) : String :=
  rows.foldl (fun acc r => acc ++ r.1 ++ "," ++ r.2 ++ "\n") "WEBADDR,INSTNM\n"

/-- Reading the crawler CSV back (headers line skipped, then the
`WEBADDR`/`INSTNM` columns of each record; lines with fewer than two
fields yield no record). -/
def decodeCsv (s : String) : List (String × String) :=
  ((splitOnChar '\n' s.toList).drop 1).filterMap (fun line =>
    match splitOnChar ',' line with
    | a :: b :: _ => some (String.mk a, String.mk b)
    | _ => none)

/-! ## Stage 1: `create_crawler_csv` (main.rs lines 33–87) -/

/-- Records surviving URL normalization: for each input row the
normalized `full_url.as_str()` is kept with the raw `INSTNM`; rows whose
address fails both parse attempts are logged and dropped. -/
def crawlerRows (inputRows : List (String × String)) : List (String × String) :=
  inputRows.filterMap (fun r =>
    match ensure_https_scheme r.1 with
    | .ok u => some (u.asStr, r.2)
    | .error _ => none)

/-- Model of `create_crawler_csv`: skip if the crawler CSV already
exists, otherwise write it from the input rows.  The input tabular
collaborator is the `inputRows` parameter (already projected to its
`WEBADDR`/`INSTNM` columns). -/
def create_crawler_csv (inputRows : List (String × String)) (fs : FS) : FS :=
  if fs.crawler.isSome then fs
  else { fs with crawler := some (encodeCsv (crawlerRows inputRows)) }

/-! ## Stage 2: `create_output_folders` (main.rs lines 89–154) -/

/-- Model of one row of the page-mirror loop (main.rs lines 110–151):
normalize the address (on failure: log and continue); compute the
institution directory from the sanitized, trimmed `INSTNM`; skip entirely
when the directory and its `index.html` both exist; otherwise create the
directory if absent and fetch the page (`fetch_html`, one HTTP request),
writing the body verbatim to `index.html` on success and merely logging
on failure.  Returns the requests issued and the new state. -/
def outputRowStep (net : Net) (fs : FS) (row : String × String) :
    List String × FS :=
  match ensure_https_scheme row.1 with
  | .error _ => ([], fs)
  | .ok u =>
    let folder := sanitize_folder_name (rustTrim row.2)
    if fs.dirExists folder && fs.fileExists folder "index.html" then ([], fs)
    else
      let fs1 := if fs.dirExists folder then fs else fs.createDir folder
      match net u.asStr with
      | .ok resp => ([u.asStr], fs1.writeFile folder "index.html" resp.body)
      | .error _ => ([u.asStr], fs1)

/-- The page-mirror pass over all crawler rows; per-row failures never
abort it. -/
def outputRows (net : Net) : List (String × String) → FS → List String × FS
  | [], fs => ([], fs)
  | row :: rest, fs =>
    let p := outputRowStep net fs row
    let q := outputRows net rest p.2
    (p.1 ++ q.1, q.2)

/-- Model of `create_output_folders`: create the output root if absent,
read the crawler CSV (its absence is a fatal `?` error), run the
page-mirror pass. -/
def create_output_folders (net : Net) (fs : FS) : List String × Except Unit FS :=
  let fs0 := if fs.rootExists then fs else { fs with rootExists := true }
  match fs0.crawler with
  | none => ([], .error ())
  | some content =>
    let p := outputRows net (decodeCsv content) fs0
    (p.1, .ok p.2)

/-! ## Stage 3: `process_videos_in_html` (main.rs lines 156–205) -/

/-- Model of `extract_video_elements`: the outer HTML of all `video` and
`iframe` elements of the stored page, in document order (by the
`HtmlEngine` collaborator). -/
def extract_video_elements (eng : HtmlEngine) (content : String) : List String :=
  eng.selectVideoIframe content

/-- Decimal digits of `n`, most significant first, with a fuel argument
keeping the recursion structural (`fuel > n` suffices). -/
def decimalDigits : Nat → Nat → List Char
  | 0, _ => []
  | fuel + 1, n =>
    if n < 10 then [Nat.digitChar n]
    else decimalDigits fuel (n / 10) ++ [Nat.digitChar (n % 10)]

/-- Decimal representation of a natural number (the number formatting
used by `format!` for the fragment index). -/
def natDecimal (n : Nat) : String := String.mk (decimalDigits (n + 1) n)

/-- Value of a digit string (used to prove `natDecimal` injective). -/
def digitVal (l : List Char) : Nat :=
  l.foldl (fun a c => 10 * a + (c.toNat - 48)) 0

/-- One fragment filename: `video_{n}.html`. -/
def fragName (n : Nat) : String := "video_" ++ natDecimal n ++ ".html"

/-- The `save_video_elements` loop from position `i` (0-based; the
filename index is `i + 1`): write each element to its fragment filename
unless that file already exists. -/
def saveFrom (d : String) : Nat → List String → FS → FS
  | _, [], fs => fs
  | i, e :: rest, fs =>
    let fs1 := if fs.fileExists d (fragName (i + 1)) then fs
               else fs.writeFile d (fragName (i + 1)) e
    saveFrom d (i + 1) rest fs1

/-- Model of `save_video_elements`. -/
def save_video_elements (elems : List String) (d : String) (fs : FS) : FS :=
  saveFrom d 0 elems fs

/-- The stage-3 pass over the listed institution directories. -/
def processDirsExtract (eng : HtmlEngine) : List String → FS → FS
  | [], fs => fs
  | d :: rest, fs =>
    let fs1 :=
      match fs.lookupFile d "index.html" with
      | some content => save_video_elements (extract_video_elements eng content) d fs
      | none => fs
    processDirsExtract eng rest fs1

/-- Model of `process_videos_in_html`: for every subdirectory of the
output root holding an `index.html`, extract and save its media
fragments. -/
def process_videos_in_html (eng : HtmlEngine) (fs : FS) : FS :=
  processDirsExtract eng fs.dirs fs

/-! ## Stage 4: `download_videos` (main.rs lines 207–266) -/

/-- Model of `download_video` (main.rs lines 268–275): one GET of the
media URL; on success the body is written to the output file, on failure
the `?` error propagates (the request is still counted). -/
def download_video (net : Net) (url d fname : String) (fs : FS) :
    List String × Except Unit FS :=
  match net url with
  | .ok resp => ([url], .ok (fs.writeFile d fname resp.body))
  | .error _ => ([url], .error ())

/-- Model of the per-fragment body of the `download_videos` loop
(main.rs lines 216–261).  Branches:

* first `video` element with a `src`: normalize the `src` (a parse
  failure is a propagated `?` error), derive the filename via
  `Path::new(src).file_name().unwrap()` (a `None` is a panic, modelled as
  the same aborting error), skip when the file exists, else download;
* first `video` element without `src`: nothing (the `iframe` branch is
  not reached);
* else first `iframe` element with a `src`: when the raw `src` string
  contains `"vimeo.com"`, normalize it, take the last path segment as the
  id, GET the fixed config endpoint, read
  `request.files.progressive.url` as a string (`unwrap` panic on a
  non-string, modelled as the aborting error), skip when
  `vimeo_{id}.mp4` exists, else download; a non-Vimeo `src` is only
  logged;
* no element or no `src`: nothing. -/
def processFragment (eng : HtmlEngine) (net : Net) (d : String) (fs : FS)
    (content : String) : List String × Except Unit FS :=
  match eng.firstVideoSrc content with
  | some srcAttr =>
    match srcAttr with
    | some src =>
      match ensure_https_scheme src with
      | .error _ => ([], .error ())
      | .ok u =>
        match pathFileName src with
        | none => ([], .error ())
        | some fname =>
          if fs.fileExists d fname then ([], .ok fs)
          else download_video net u.asStr d fname fs
    | none => ([], .ok fs)
  | none =>
    match eng.firstIframeSrc content with
    | some (some src) =>
      if strContains src "vimeo.com" then
        match ensure_https_scheme src with
        | .error _ => ([], .error ())
        | .ok u =>
          let vid := lastSegment u.pathSegments
          let api := "https://player.vimeo.com/video/" ++ vid ++ "/config"
          match net api with
          | .error _ => ([api], .error ())
          | .ok resp =>
            match resp.json with
            | .error _ => ([api], .error ())
            | .ok j =>
              match ((((j.idx "request").idx "files").idx "progressive").idx
                  "url").asStr with
              | none => ([api], .error ())
              | some vsrc =>
                let fname := "vimeo_" ++ vid ++ ".mp4"
                if fs.fileExists d fname then ([api], .ok fs)
                else
                  let p := download_video net vsrc d fname fs
                  (api :: p.1, p.2)
      else ([], .ok fs)
    | some none => ([], .ok fs)
    | none => ([], .ok fs)

/-- The per-directory fragment loop: processes each fragment in turn; an
error (`?` or panic) ends the whole loop, leaving later fragments
unprocessed. -/
def processFragments (eng : HtmlEngine) (net : Net) (d : String) :
    List String → FS → List String × Except Unit FS
  | [], fs => ([], .ok fs)
  | c :: rest, fs =>
    match processFragment eng net d fs c with
    | (r, .error _) => (r, .error ())
    | (r, .ok fs1) =>
      let q := processFragments eng net d rest fs1
      (r ++ q.1, q.2)

/-- Contents of the files of `d` whose names start with `video_`, in
listing order: the fragments the download loop examines (listing taken
when the directory's iteration starts). -/
def fragmentFiles (fs : FS) (d : String) : List String :=
  ((fs.filesIn d).filter
      (fun e => "video_".toList.isPrefixOf e.1.toList)).map (fun e => e.2)

/-- The stage-4 pass over the institution directories; an error in one
directory's loop aborts the stage. -/
def processDirsDownload (eng : HtmlEngine) (net : Net) :
    List String → FS → List String × Except Unit FS
  | [], fs => ([], .ok fs)
  | d :: rest, fs =>
    match processFragments eng net d (fragmentFiles fs d) fs with
    | (r, .error _) => (r, .error ())
    | (r, .ok fs1) =>
      let q := processDirsDownload eng net rest fs1
      (r ++ q.1, q.2)

/-- Model of `download_videos`. -/
def download_videos (eng : HtmlEngine) (net : Net) (fs : FS) :
    List String × Except Unit FS :=
  processDirsDownload eng net fs.dirs fs

/-! ## The pipeline driver (`main`, main.rs lines 13–31) -/

/-- Model of `main`: the four stages in sequence, each stage's `?` error
aborting the run; the request log records every HTTP GET in order. -/
def pipeline (eng : HtmlEngine) (net : Net) (inputRows : List (String × String))
    (fs : FS) : List String × Except Unit FS :=
  let fs1 := create_crawler_csv inputRows fs
  match create_output_folders net fs1 with
  | (r2, .error _) => (r2, .error ())
  | (r2, .ok fs2) =>
    let fs3 := process_videos_in_html eng fs2
    let p := download_videos eng net fs3
    (r2 ++ p.1, p.2)

/-! ## A concrete closed scenario

One institution whose homepage embeds the spec's example Vimeo player.
Used to evaluate the pipeline on explicit inputs: the first run from the
empty filesystem populates everything; the behaviour of a second run over
the populated tree is then computed exactly.
-/

/-- The mirrored homepage body. -/
def pageEx : String :=
  "<html><body><iframe src=\"https://player.vimeo.com/video/12345\"></iframe></body></html>"

/-- The single extracted media fragment (outer HTML of the iframe). -/
def fragEx : String := "<iframe src=\"https://player.vimeo.com/video/12345\"></iframe>"

/-- The fixed Vimeo config endpoint for id 12345. -/
def cfgUrlEx : String := "https://player.vimeo.com/video/12345/config"

/-- The progressive download URL served by the mock config body. -/
def mediaUrlEx : String := "https://x/y.mp4"

/-- The mock Vimeo config JSON: `request.files.progressive.url`. -/
def cfgJsonEx : Json :=
  .obj [("request", .obj [("files", .obj [("progressive",
    .obj [("url", .str "https://x/y.mp4")])])])]

/-- The HTML engine on this scenario's documents: the homepage yields the
one iframe fragment; the fragment has no `video` element and its first
`iframe` carries the player `src`. -/
def engEx : HtmlEngine where
  selectVideoIframe := fun c => if c = pageEx then [fragEx] else []
  firstVideoSrc := fun _ => none
  firstIframeSrc := fun c =>
    if c = fragEx then some (some "https://player.vimeo.com/video/12345") else none

/-- The HTTP collaborator on this scenario's URLs. -/
def netEx : Net := fun u =>
  if u = "https://example.edu/" then .ok ⟨pageEx, .error ()⟩
  else if u = cfgUrlEx then .ok ⟨"CONFIGBODY", .ok cfgJsonEx⟩
  else if u = mediaUrlEx then .ok ⟨"MP4BYTES", .error ()⟩
  else .error ()

/-- The input table: one institution. -/
def rowsEx : List (String × String) := [("example.edu", "Foo University")]

/-- The filesystem after the first run (extracted from the pipeline's
result, so it is by construction the output tree of a completed run). -/
def fs1Ex : FS :=
  ((pipeline engEx netEx rowsEx FS.empty).2.toOption).getD FS.empty

/-! ## A second concrete scenario: a page with two videos and an iframe -/

/-- First `video` element of the extraction-order scenario. -/
def v1Ex : String := "<video src=\"a.mp4\"></video>"

/-- Second `video` element of the extraction-order scenario. -/
def v2Ex : String := "<video src=\"b.mp4\"></video>"

/-- Trailing `iframe` element of the extraction-order scenario. -/
def if3Ex : String := "<iframe src=\"https://other.example/embed\"></iframe>"

/-- A page holding two `video` elements followed by one `iframe`. -/
def pageEx8 : String :=
  "<html>" ++ v1Ex ++ v2Ex ++ if3Ex ++ "</html>"

/-- The HTML engine for the extraction-order scenario: document-order
selection of the three elements. -/
def engEx8 : HtmlEngine where
  selectVideoIframe := fun c => if c = pageEx8 then [v1Ex, v2Ex, if3Ex] else []
  firstVideoSrc := fun c =>
    if c = v1Ex then some (some "a.mp4")
    else if c = v2Ex then some (some "b.mp4") else none
  firstIframeSrc := fun c =>
    if c = if3Ex then some (some "https://other.example/embed") else none

/-- A directory holding only the mirrored page of the extraction-order
scenario. -/
def fsEx8 : FS := ⟨true, none, ["D"], [("D", "index.html", pageEx8)]⟩

/-! ## A third concrete scenario: a direct video `src` carrying a query -/

/-- A direct video source URL whose last path segment is `clip.mp4` but
whose raw string ends in a query. -/
def srcQEx : String := "https://example.com/v/clip.mp4?token=abc"

/-- A fragment holding a `video` element with that `src`. -/
def fragQEx : String := "<video src=\"https://example.com/v/clip.mp4?token=abc\"></video>"

/-- The HTML engine of the query scenario. -/
def engEx4 : HtmlEngine where
  selectVideoIframe := fun _ => []
  firstVideoSrc := fun c => if c = fragQEx then some (some srcQEx) else none
  firstIframeSrc := fun _ => none

/-- The HTTP collaborator of the query scenario: serves the media URL. -/
def netEx4 : Net := fun u =>
  if u = srcQEx then .ok ⟨"QMP4", .error ()⟩ else .error ()

/-- A directory holding only that fragment. -/
def fsQEx : FS := ⟨true, none, ["D"], [("D", "video_1.html", fragQEx)]⟩

/-! ## A fourth concrete scenario: a fragment whose `src` fails to parse -/

/-- A fragment whose `video` `src` is a single space: both parse attempts
fail (`" "` trims to nothing; `"https:// "` has an empty host). -/
def badFragEx : String := "<video src=\" \"></video>"

/-- A well-behaved sibling fragment. -/
def goodFragEx : String := "<video src=\"https://h/ok.mp4\"></video>"

/-- The HTML engine of the failure scenario. -/
def engEx1 : HtmlEngine where
  selectVideoIframe := fun _ => []
  firstVideoSrc := fun c =>
    if c = badFragEx then some (some " ")
    else if c = goodFragEx then some (some "https://h/ok.mp4") else none
  firstIframeSrc := fun _ => none

/-- The HTTP collaborator of the failure scenario: the good media URL is
served. -/
def netEx1 : Net := fun u =>
  if u = "https://h/ok.mp4" then .ok ⟨"OKMP4", .error ()⟩ else .error ()

/-- Two institutions: `A` holds the failing fragment and a good sibling,
`B` holds another good fragment. -/
def fsC1 : FS :=
  ⟨true, none, ["A", "B"],
   [("A", "video_1.html", badFragEx), ("A", "video_2.html", goodFragEx),
    ("B", "video_1.html", goodFragEx)]⟩

/-- The same tree without the failing fragment. -/
def fsC1good : FS :=
  ⟨true, none, ["A", "B"],
   [("A", "video_1.html", goodFragEx), ("B", "video_1.html", goodFragEx)]⟩

/-! ## Readiness predicates for the second-run theorem (claim C2)

These predicates say of a state that every artifact a pipeline pass would
produce is already present (as after a completed, fully-successful run),
and that the collaborator observations the code makes *before* its
existence checks succeed, as they did on the first run.
-/

/-- The requests the Vimeo branch issues for one fragment even when its
download target already exists: the config lookup alone (it is issued
before the filename existence check).  Every other branch issues nothing
when its target exists. -/
def cfgRequestsOfFragment (eng : HtmlEngine) (c : String) : List String :=
  match eng.firstVideoSrc c with
  | some _ => []
  | none =>
    match eng.firstIframeSrc c with
    | some (some src) =>
      if strContains src "vimeo.com" then
        match ensure_https_scheme src with
        | .ok u =>
          ["https://player.vimeo.com/video/" ++ lastSegment u.pathSegments ++ "/config"]
        | .error _ => []
      else []
    | _ => []

/-- The config requests a pass over a fully-populated tree issues: per
directory, per fragment file. -/
def cfgRequests (eng : HtmlEngine) (fs : FS) : List String :=
  fs.dirs.flatMap (fun d => (fragmentFiles fs d).flatMap (cfgRequestsOfFragment eng))

/-- A fragment is download-ready when its processing performs no write:
either it resolves to no download at all, or every step before the
existence check succeeds and the resolved output file already exists. -/
def fragReadyB (eng : HtmlEngine) (net : Net) (fs : FS) (d c : String) : Bool :=
  match eng.firstVideoSrc c with
  | some (some src) =>
    (match ensure_https_scheme src, pathFileName src with
     | .ok _, some fn => fs.fileExists d fn
     | _, _ => false)
  | some none => true
  | none =>
    match eng.firstIframeSrc c with
    | some (some src) =>
      if strContains src "vimeo.com" then
        match ensure_https_scheme src with
        | .ok u =>
          (match net ("https://player.vimeo.com/video/" ++
              lastSegment u.pathSegments ++ "/config") with
           | .ok resp =>
             (match resp.json with
              | .ok j =>
                ((((j.idx "request").idx "files").idx "progressive").idx
                    "url").asStr.isSome &&
                  fs.fileExists d ("vimeo_" ++ lastSegment u.pathSegments ++ ".mp4")
              | .error _ => false)
           | .error _ => false)
        | .error _ => false
      else true
    | some none => true
    | none => true

/-- A crawler row is mirror-ready when the mirror loop does nothing for
it: its address fails normalization (log-and-continue), or its directory
and `index.html` both exist. -/
def rowReadyB (fs : FS) (row : String × String) : Bool :=
  match ensure_https_scheme row.1 with
  | .error _ => true
  | .ok _ =>
    fs.dirExists (sanitize_folder_name (rustTrim row.2)) &&
      fs.fileExists (sanitize_folder_name (rustTrim row.2)) "index.html"

/-- A directory is extraction-ready when stage 3 writes nothing in it: it
has no stored page, or every fragment filename of its page's extraction
already exists. -/
def dirFragsSavedB (eng : HtmlEngine) (fs : FS) (d : String) : Bool :=
  match fs.lookupFile d "index.html" with
  | none => true
  | some c =>
    (List.range (extract_video_elements eng c).length).all
      (fun i => fs.fileExists d (fragName (i + 1)))

/-! ## Helper lemmas -/

@[simp] theorem toList_mk (l : List Char) : (String.mk l).toList = l := rfl

/-! ## Helper lemmas on the sanitizer -/

theorem keepChar_after_replace (c : Char) (h : keepChar c = true) :
    keepChar (if c = ' ' then '_' else c) = true := by
  by_cases hc : c = ' '
  · subst hc; decide
  · rw [if_neg hc]; exact h

theorem mem_sanitized {c : Char} {l : List Char}
    (h : c ∈ (l.filter keepChar).map (fun c => if c = ' ' then '_' else c)) :
    keepChar c = true ∧ c ≠ ' ' := by
  simp only [List.mem_map, List.mem_filter] at h
  obtain ⟨a, ⟨_, ha⟩, rfl⟩ := h
  refine ⟨keepChar_after_replace a ha, ?_⟩
  by_cases hc : a = ' '
  · subst hc; decide
  · rw [if_neg hc]; exact hc

theorem removeDisallowed_eq (l : List Char) :
    removeDisallowed l = l.filter keepChar := by
  induction l with
  | nil => rfl
  | cons c r ih => simp [removeDisallowed, List.filter_cons, ih]

theorem replaceSpaces_eq (l : List Char) :
    replaceSpaces l = l.map (fun c => if c = ' ' then '_' else c) := by
  induction l with
  | nil => rfl
  | cons c r ih => simp [replaceSpaces, ih]

/-- Claim C3 (counterexample): the sanitizer does not collapse whitespace
runs and does not yield the claimed example value.  On the claim's own
example `"Foo Bar, Inc."` the code produces `"Foo_Bar_Inc"`, not
`"FooBar_Inc"`; a run of two spaces becomes two underscores, not one; and
a tab (whitespace, but not a space character) is kept verbatim rather
than replaced. -/
theorem c3_counterexample :
    sanitize_folder_name "Foo Bar, Inc." = "Foo_Bar_Inc" ∧
    "Foo_Bar_Inc" ≠ "FooBar_Inc" ∧
    sanitize_folder_name "a  b" = "a__b" ∧
    sanitize_folder_name "a\tb" = "a\tb" :=
  ⟨rfl, by decide, rfl, rfl⟩

/-- Claim C3 (amended): for every input, the sanitizer removes every
character that is not alphanumeric, underscore, hyphen, or whitespace,
and then replaces each space character individually with one underscore
(a run of k spaces becomes k underscores; non-space whitespace is kept);
in particular `sanitize("Foo Bar, Inc.")` returns `"Foo_Bar_Inc"` and
`sanitize("a  b")` returns `"a__b"`. -/
theorem c3_sanitizer_amended :
    (∀ s, sanitize_folder_name s = sanitizeAmended s) ∧
    sanitize_folder_name "Foo Bar, Inc." = "Foo_Bar_Inc" ∧
    sanitize_folder_name "a  b" = "a__b" := by
  refine ⟨fun s => ?_, rfl, rfl⟩
  unfold sanitize_folder_name sanitizeAmended
  rw [removeDisallowed_eq, replaceSpaces_eq]

/-- Claim C9: the name sanitizer is idempotent — for every input string
`s`, `sanitize(sanitize(s)) = sanitize(s)`.  Every character surviving
one pass is a kept character and is not a space, so a second pass removes
nothing and replaces nothing. -/
theorem c9_sanitize_idempotent (s : String) :
    sanitize_folder_name (sanitize_folder_name s) = sanitize_folder_name s := by
  unfold sanitize_folder_name
  simp only [toList_mk]
  congr 1
  have hkeep : ∀ c ∈ (s.toList.filter keepChar).map
      (fun c => if c = ' ' then '_' else c), keepChar c = true :=
    fun c hc => (mem_sanitized hc).1
  rw [List.filter_eq_self.mpr hkeep]
  have hns : ∀ c ∈ (s.toList.filter keepChar).map
      (fun c => if c = ' ' then '_' else c),
      (if c = ' ' then '_' else c) = c := by
    intro c hc
    exact if_neg (mem_sanitized hc).2
  rw [List.map_congr_left hns]
  exact List.map_id' _

/-! ## Theorems on the URL normalizer (claim C5) -/

/-- Claim C5 (counterexample): the claim says that an input for which
both parse attempts fail "returns a parse error naming the original
input".  The error type of the URL collaborator is a payload-free enum,
and the two distinct whitespace-only inputs `" "` and `"  "` produce the
very same error value (`EmptyHost`, the error of the second, prefixed
attempt), so the returned error cannot name — or even determine — the
original input. -/
theorem c5_counterexample :
    ensure_https_scheme " " = ensure_https_scheme "  " ∧
    (" " : String) ≠ "  " ∧
    ensure_https_scheme " " = .error .emptyHost :=
  ⟨rfl, by decide, rfl⟩

/-- Claim C5 (amended): URL normalization first attempts a strict
absolute-URL parse and, if that fails, retries exactly once with the
prefix `https://` prepended; an input that already parses is returned as
its parsed form unchanged; the scheme-less input `"example.edu"` yields
`https://example.edu/`; and an input for which both attempts fail (for
example one containing only whitespace) returns the parse error of the
second, prefixed attempt — a bare error code that does not identify the
original input. -/
theorem c5_normalizer_amended :
    (∀ s u, Url.parse s = .ok u → ensure_https_scheme s = .ok u) ∧
    (∀ s e, Url.parse s = .error e →
      ensure_https_scheme s = Url.parse ("https://" ++ s)) ∧
    (ensure_https_scheme "example.edu").map Url.asStr = .ok "https://example.edu/" ∧
    ensure_https_scheme "   " = .error .emptyHost := by
  refine ⟨fun s u h => ?_, fun s e h => ?_, rfl, rfl⟩
  · unfold ensure_https_scheme
    rw [h]
  · unfold ensure_https_scheme
    rw [h]

/-- Claim C5 witness: the amended theorem applied at the concrete inputs
`"https://example.edu"` (already-parsing: returned unchanged) and
`"example.edu"` (failing strict parse: retried with the prefix). -/
theorem c5_witness :
    ensure_https_scheme "https://example.edu" =
      .ok ⟨"https", "example.edu", "/", none⟩ ∧
    ensure_https_scheme "example.edu" = Url.parse "https://example.edu" :=
  ⟨c5_normalizer_amended.1 "https://example.edu" ⟨"https", "example.edu", "/", none⟩ rfl,
   c5_normalizer_amended.2.1 "example.edu" .relativeUrlWithoutBase rfl⟩

/-! ## Theorems on the page-mirror stage (claims C7 and C10) -/

theorem dirExists_createDir (fs : FS) (d : String) :
    (fs.createDir d).dirExists d = true := by
  simp [FS.createDir, FS.dirExists]

theorem fileExists_createDir (fs : FS) (d a b : String) :
    (fs.createDir d).fileExists a b = fs.fileExists a b := rfl

/-- Claim C7: in the page-mirror stage, a row whose institution directory
and `index.html` both exist is skipped entirely (no request, no state
change); otherwise the directory is created if absent and the fetched
body is written verbatim to `index.html`; and a fetch failure only
ensures the directory, issues no write, and the pass continues with the
remaining rows. -/
theorem c7_page_mirror_row (net : Net) (fs : FS) (row : String × String) (u : Url)
    (hu : ensure_https_scheme row.1 = .ok u) :
    ((fs.dirExists (sanitize_folder_name (rustTrim row.2)) &&
      fs.fileExists (sanitize_folder_name (rustTrim row.2)) "index.html") = true →
      outputRowStep net fs row = ([], fs)) ∧
    (∀ resp,
      (fs.dirExists (sanitize_folder_name (rustTrim row.2)) &&
       fs.fileExists (sanitize_folder_name (rustTrim row.2)) "index.html") = false →
      net u.asStr = .ok resp →
      outputRowStep net fs row =
        ([u.asStr],
         (if fs.dirExists (sanitize_folder_name (rustTrim row.2)) then fs
          else fs.createDir (sanitize_folder_name (rustTrim row.2))).writeFile
           (sanitize_folder_name (rustTrim row.2)) "index.html" resp.body)) ∧
    ((fs.dirExists (sanitize_folder_name (rustTrim row.2)) &&
      fs.fileExists (sanitize_folder_name (rustTrim row.2)) "index.html") = false →
      net u.asStr = .error () →
      outputRowStep net fs row =
        ([u.asStr],
         if fs.dirExists (sanitize_folder_name (rustTrim row.2)) then fs
         else fs.createDir (sanitize_folder_name (rustTrim row.2))) ∧
      ∀ rest, outputRows net (row :: rest) fs =
        ((outputRowStep net fs row).1 ++ (outputRows net rest (outputRowStep net fs row).2).1,
         (outputRows net rest (outputRowStep net fs row).2).2)) := by
  refine ⟨fun hsk => ?_, fun resp hsk hnet => ?_, fun hsk hnet => ⟨?_, fun rest => rfl⟩⟩
  · unfold outputRowStep
    rw [hu]
    simp only [hsk, if_true]
  · unfold outputRowStep
    rw [hu]
    simp only [hsk, Bool.false_eq_true, if_false, hnet]
  · unfold outputRowStep
    rw [hu]
    simp only [hsk, Bool.false_eq_true, if_false, hnet]

/-- Claim C7 witness: the three cases of the row contract exercised at
concrete states: a populated state (skip), an empty state with a
successful fetch (directory created, page written), and an empty state
with a failing fetch (directory created, nothing written, pass
continues). -/
theorem c7_witness :
    outputRowStep netEx ⟨true, none, ["Foo_University"],
        [("Foo_University", "index.html", "OLD")]⟩ ("example.edu", "Foo University") =
      ([], ⟨true, none, ["Foo_University"], [("Foo_University", "index.html", "OLD")]⟩) ∧
    outputRowStep netEx ⟨true, none, [], []⟩ ("example.edu", "Foo University") =
      (["https://example.edu/"],
       ((FS.createDir ⟨true, none, [], []⟩ "Foo_University").writeFile
         "Foo_University" "index.html" pageEx)) ∧
    outputRowStep (fun _ => .error ()) ⟨true, none, [], []⟩
        ("example.edu", "Foo University") =
      (["https://example.edu/"], FS.createDir ⟨true, none, [], []⟩ "Foo_University") := by
  refine ⟨?_, ?_, ?_⟩
  · exact (c7_page_mirror_row netEx _ ("example.edu", "Foo University")
      ⟨"https", "example.edu", "/", none⟩ rfl).1 (by decide)
  · exact (c7_page_mirror_row netEx _ ("example.edu", "Foo University")
      ⟨"https", "example.edu", "/", none⟩ rfl).2.1 ⟨pageEx, .error ()⟩ (by decide) rfl
  · exact ((c7_page_mirror_row (fun _ => .error ()) _ ("example.edu", "Foo University")
      ⟨"https", "example.edu", "/", none⟩ rfl).2.2 (by decide) rfl).1

/-- Claim C10: the institution directory is created before the fetch is
attempted, so after a row whose fetch fails the directory exists while
`index.html` does not; re-running that row does not take the both-exist
skip path and re-attempts the fetch (issuing the same request again). -/
theorem c10_dir_persists_after_failed_fetch (net : Net) (fs : FS)
    (row : String × String) (u : Url)
    (hu : ensure_https_scheme row.1 = .ok u)
    (hidx : fs.fileExists (sanitize_folder_name (rustTrim row.2)) "index.html" = false)
    (hnet : net u.asStr = .error ()) :
    (outputRowStep net fs row).1 = [u.asStr] ∧
    ((outputRowStep net fs row).2).dirExists (sanitize_folder_name (rustTrim row.2)) = true ∧
    ((outputRowStep net fs row).2).fileExists
      (sanitize_folder_name (rustTrim row.2)) "index.html" = false ∧
    outputRowStep net ((outputRowStep net fs row).2) row =
      ([u.asStr], (outputRowStep net fs row).2) := by
  have hstep : outputRowStep net fs row =
      ([u.asStr],
       if fs.dirExists (sanitize_folder_name (rustTrim row.2)) then fs
       else fs.createDir (sanitize_folder_name (rustTrim row.2))) := by
    unfold outputRowStep
    rw [hu]
    simp only [hidx, Bool.and_false, Bool.false_eq_true, if_false, hnet]
  rw [hstep]
  by_cases hd : fs.dirExists (sanitize_folder_name (rustTrim row.2)) = true
  · rw [if_pos hd]
    refine ⟨rfl, hd, hidx, ?_⟩
    unfold outputRowStep
    rw [hu]
    simp only [hidx, Bool.and_false, Bool.false_eq_true, if_false, hnet, hd, if_true]
  · rw [if_neg hd]
    refine ⟨rfl, dirExists_createDir fs _, ?_, ?_⟩
    · rw [fileExists_createDir]; exact hidx
    · unfold outputRowStep
      rw [hu]
      have h1 : (fs.createDir (sanitize_folder_name (rustTrim row.2))).fileExists
          (sanitize_folder_name (rustTrim row.2)) "index.html" = false := by
        rw [fileExists_createDir]; exact hidx
      simp only [h1, Bool.and_false, Bool.false_eq_true, if_false, hnet,
        dirExists_createDir, if_true]

/-- Claim C10 witness: the theorem applied at an empty state with a
failing network: the directory survives, holds no `index.html`, and the
re-run fetches again. -/
theorem c10_witness :
    (outputRowStep (fun _ => .error ()) ⟨true, none, [], []⟩
        ("example.edu", "Foo University")).1 = ["https://example.edu/"] ∧
    ((outputRowStep (fun _ => .error ()) ⟨true, none, [], []⟩
        ("example.edu", "Foo University")).2).dirExists "Foo_University" = true ∧
    ((outputRowStep (fun _ => .error ()) ⟨true, none, [], []⟩
        ("example.edu", "Foo University")).2).fileExists "Foo_University" "index.html" = false ∧
    outputRowStep (fun _ => .error ())
        ((outputRowStep (fun _ => .error ()) ⟨true, none, [], []⟩
          ("example.edu", "Foo University")).2) ("example.edu", "Foo University") =
      (["https://example.edu/"],
       (outputRowStep (fun _ => .error ()) ⟨true, none, [], []⟩
         ("example.edu", "Foo University")).2) :=
  c10_dir_persists_after_failed_fetch (fun _ => .error ()) ⟨true, none, [], []⟩
    ("example.edu", "Foo University") ⟨"https", "example.edu", "/", none⟩ rfl rfl rfl

/-! ## Helper lemmas on the filesystem model -/

theorem lookupEntries_append (l1 l2 : List (String × String × String)) (d f : String) :
    lookupEntries (l1 ++ l2) d f = (lookupEntries l1 d f).or (lookupEntries l2 d f) := by
  induction l1 with
  | nil => simp [lookupEntries, Option.none_or]
  | cons e rest ih =>
    obtain ⟨d0, f0, c0⟩ := e
    by_cases h : (d0 = d && f0 = f) = true
    · simp [lookupEntries, h]
    · simp only [List.cons_append, lookupEntries, h]
      simp [ih]

theorem lookupEntries_single (d f c d' f' : String) :
    lookupEntries [(d, f, c)] d' f' =
      if d = d' && f = f' then some c else none := by
  simp [lookupEntries]

theorem lookupFile_writeFile_absent (fs : FS) (d f c : String)
    (hab : fs.fileExists d f = false) (d' f' : String) :
    (fs.writeFile d f c).lookupFile d' f' =
      (fs.lookupFile d' f').or (if d = d' && f = f' then some c else none) := by
  unfold FS.writeFile
  rw [hab]
  simp only [Bool.false_eq_true, if_false]
  show lookupEntries (fs.files ++ [(d, f, c)]) d' f' = _
  rw [lookupEntries_append, lookupEntries_single]
  rfl

/-! ## Injectivity of the fragment filenames -/

theorem digitVal_append (l : List Char) (c : Char) :
    digitVal (l ++ [c]) = 10 * digitVal l + (c.toNat - 48) := by
  unfold digitVal
  rw [List.foldl_append]
  rfl

theorem digitChar_val (n : Nat) (h : n < 10) : (Nat.digitChar n).toNat - 48 = n := by
  interval_cases n <;> decide

theorem decimalDigits_val : ∀ (fuel n : Nat), n < fuel →
    digitVal (decimalDigits fuel n) = n := by
  intro fuel
  induction fuel with
  | zero => intro n h; omega
  | succ fuel ih =>
    intro n h
    unfold decimalDigits
    by_cases h10 : n < 10
    · rw [if_pos h10]
      show digitVal [Nat.digitChar n] = n
      have hd := digitChar_val n h10
      unfold digitVal
      simp only [List.foldl_cons, List.foldl_nil]
      omega
    · rw [if_neg h10]
      rw [digitVal_append]
      have hdiv : n / 10 < fuel := by
        have : n / 10 < n := Nat.div_lt_self (by omega) (by omega)
        omega
      rw [ih (n / 10) hdiv, digitChar_val (n % 10) (Nat.mod_lt n (by omega))]
      omega

theorem natDecimal_inj {a b : Nat} (h : natDecimal a = natDecimal b) : a = b := by
  have hl : decimalDigits (a + 1) a = decimalDigits (b + 1) b := by
    have := congrArg String.toList h
    simpa [natDecimal] using this
  have hv := congrArg digitVal hl
  rwa [decimalDigits_val (a + 1) a (by omega), decimalDigits_val (b + 1) b (by omega)] at hv

theorem fragName_inj {a b : Nat} (h : fragName a = fragName b) : a = b := by
  apply natDecimal_inj
  have hl := congrArg String.data h
  unfold fragName at hl
  rw [String.data_append, String.data_append, String.data_append, String.data_append] at hl
  have h1 := List.append_cancel_right hl
  have h2 := List.append_cancel_left h1
  exact congrArg String.mk h2

/-! ## Behaviour of the fragment-saving loop (claim C8) -/

theorem saveFrom_preserves (d : String) :
    ∀ (elems : List String) (k : Nat) (fs : FS) (d' f' c0 : String),
      fs.lookupFile d' f' = some c0 →
      (saveFrom d k elems fs).lookupFile d' f' = some c0 := by
  intro elems
  induction elems with
  | nil => intro k fs d' f' c0 h; exact h
  | cons e rest ih =>
    intro k fs d' f' c0 h
    simp only [saveFrom]
    by_cases hex : fs.fileExists d (fragName (k + 1)) = true
    · simp only [hex, if_true]
      exact ih (k + 1) fs d' f' c0 h
    · have hex' : fs.fileExists d (fragName (k + 1)) = false := by simpa using hex
      simp only [hex', Bool.false_eq_true, if_false]
      apply ih
      rw [lookupFile_writeFile_absent fs _ _ e hex', h]
      rfl

theorem saveFrom_lookup (d : String) :
    ∀ (elems : List String) (k : Nat) (fs : FS) (i : Nat) (h : i < elems.length),
      (saveFrom d k elems fs).lookupFile d (fragName (k + i + 1)) =
        some ((fs.lookupFile d (fragName (k + i + 1))).getD (elems.get ⟨i, h⟩)) := by
  intro elems
  induction elems with
  | nil => intro k fs i h; exact absurd h (by simp)
  | cons e rest ih =>
    intro k fs i h
    match i with
    | 0 =>
      simp only [saveFrom, List.get]
      by_cases hex : fs.fileExists d (fragName (k + 1)) = true
      · obtain ⟨c0, hc0⟩ := Option.isSome_iff_exists.mp hex
        simp only [hex, if_true]
        rw [saveFrom_preserves d rest (k + 1) fs d (fragName (k + 1)) c0 hc0]
        rw [show k + 0 + 1 = k + 1 from rfl, hc0]
        rfl
      · have hex' : fs.fileExists d (fragName (k + 1)) = false := by simpa using hex
        have hnone : fs.lookupFile d (fragName (k + 1)) = none :=
          Option.not_isSome_iff_eq_none.mp (by simpa [FS.fileExists] using hex)
        simp only [hex', Bool.false_eq_true, if_false]
        have hnew : (fs.writeFile d (fragName (k + 1)) e).lookupFile d (fragName (k + 1)) =
            some e := by
          rw [lookupFile_writeFile_absent fs _ _ e hex', hnone]
          simp
        rw [saveFrom_preserves d rest (k + 1) _ d (fragName (k + 1)) e hnew]
        rw [show k + 0 + 1 = k + 1 from rfl, hnone]
        rfl
    | j + 1 =>
      simp only [saveFrom, List.get]
      have hidx : k + (j + 1) + 1 = (k + 1) + j + 1 := by omega
      rw [hidx]
      by_cases hex : fs.fileExists d (fragName (k + 1)) = true
      · simp only [hex, if_true]
        exact ih (k + 1) fs j (by simpa using Nat.lt_of_succ_lt_succ h)
      · have hex' : fs.fileExists d (fragName (k + 1)) = false := by simpa using hex
        simp only [hex', Bool.false_eq_true, if_false]
        have hne : (fragName (k + 1) = fragName ((k + 1) + j + 1)) = False := by
          simp only [eq_iff_iff, iff_false]
          intro hcontra
          have := fragName_inj hcontra
          omega
        have hun : (fs.writeFile d (fragName (k + 1)) e).lookupFile d
            (fragName ((k + 1) + j + 1)) = fs.lookupFile d (fragName ((k + 1) + j + 1)) := by
          rw [lookupFile_writeFile_absent fs _ _ e hex']
          simp [hne]
        rw [ih (k + 1) _ j (by simpa using Nat.lt_of_succ_lt_succ h), hun]

/-- Claim C8: for every stored page, the extractor selects the `video`
and `iframe` elements in document order and the saver writes the i-th
match (1-based) to `video_{i}.html`, writing only when that filename does
not exist yet and never overwriting any existing file; in particular a
page with two `video` elements followed by one `iframe` yields
`video_1.html`, `video_2.html`, `video_3.html` holding the three
elements in document order. -/
theorem c8_extractor_correct :
    (∀ eng content d fs d' f' c0, fs.lookupFile d' f' = some c0 →
      (save_video_elements (extract_video_elements eng content) d fs).lookupFile d' f' =
        some c0) ∧
    (∀ eng content d fs i (h : i < (extract_video_elements eng content).length),
      (save_video_elements (extract_video_elements eng content) d fs).lookupFile d
          (fragName (i + 1)) =
        some ((fs.lookupFile d (fragName (i + 1))).getD
          ((extract_video_elements eng content).get ⟨i, h⟩))) ∧
    save_video_elements (extract_video_elements engEx8 pageEx8) "D" fsEx8 =
      ⟨true, none, ["D"],
       [("D", "index.html", pageEx8), ("D", fragName 1, v1Ex),
        ("D", fragName 2, v2Ex), ("D", fragName 3, if3Ex)]⟩ := by
  refine ⟨?_, ?_, rfl⟩
  · intro eng content d fs d' f' c0 h
    exact saveFrom_preserves d _ 0 fs d' f' c0 h
  · intro eng content d fs i h
    have hs := saveFrom_lookup d (extract_video_elements eng content) 0 fs i h
    simpa using hs

/-- Claim C8 witness: the preservation part applied to the stored page
itself (untouched by saving), and the indexing part applied at position
1 (0-based) of the three-element scenario: `video_2.html` holds the
second `video` element. -/
theorem c8_witness :
    (save_video_elements (extract_video_elements engEx8 pageEx8) "D" fsEx8).lookupFile
        "D" "index.html" = some pageEx8 ∧
    (save_video_elements (extract_video_elements engEx8 pageEx8) "D" fsEx8).lookupFile
        "D" (fragName 2) = some v2Ex :=
  ⟨c8_extractor_correct.1 engEx8 pageEx8 "D" fsEx8 "D" "index.html" pageEx8 rfl,
   (c8_extractor_correct.2.1 engEx8 pageEx8 "D" fsEx8 1 (by decide)).trans rfl⟩

/-! ## Substring lemmas: the parsed host occurs inside the raw input -/

theorem containsSub_iff (hay pat : List Char) :
    containsSub hay pat = true ↔ pat <:+: hay := by
  induction hay with
  | nil =>
    simp [containsSub]
  | cons c rest ih =>
    rw [containsSub, Bool.or_eq_true, ih, List.isPrefixOf_iff_prefix,
      List.infix_cons_iff]

theorem strContains_of_sub {hay pat : String} (h : pat.toList <:+: hay.toList) :
    strContains hay pat = true := by
  unfold strContains
  exact (containsSub_iff _ _).mpr h

theorem trimJunk_isSub (l : List Char) : trimJunk l <:+: l := by
  have h2 : (l.dropWhile urlJunk).reverse.dropWhile urlJunk <:+
      (l.dropWhile urlJunk).reverse := List.dropWhile_suffix urlJunk
  have h3 : trimJunk l <+: l.dropWhile urlJunk :=
    List.reverse_suffix.mp (by unfold trimJunk; rw [List.reverse_reverse]; exact h2)
  exact h3.isInfix.trans (List.dropWhile_suffix urlJunk).isInfix

theorem trimJunk_prefix_of_head (c : Char) (l : List Char) (hc : urlJunk c = false) :
    trimJunk (c :: l) <+: (c :: l) := by
  unfold trimJunk
  rw [List.dropWhile_cons, hc]
  simp only [Bool.false_eq_true, if_false]
  exact List.reverse_suffix.mp
    (by rw [List.reverse_reverse]; exact List.dropWhile_suffix urlJunk)

theorem parseAfterScheme_host (sch : String) (rest : List Char) (u : Url)
    (h : parseAfterScheme sch rest = .ok u) :
    u.host.toList = rest.takeWhile (fun c => !isHostEnd c) := by
  by_cases he : (rest.takeWhile (fun c => !isHostEnd c)).isEmpty = true
  · simp [parseAfterScheme, he] at h
  · simp only [parseAfterScheme, he, Bool.false_eq_true, if_false,
      Except.ok.injEq] at h
    rw [← h]
    rfl

theorem urlparse_host_inside (s : String) (u : Url) (h : Url.parse s = .ok u) :
    u.host.toList <:+: s.toList := by
  simp only [Url.parse] at h
  by_cases c1 : (trimJunk s.toList).take 8 = "https://".toList
  · rw [if_pos c1] at h
    have hp : u.host.toList <+: (trimJunk s.toList).drop 8 := by
      rw [parseAfterScheme_host _ _ _ h]
      exact List.takeWhile_prefix _
    exact (hp.isInfix.trans (List.drop_suffix 8 _).isInfix).trans (trimJunk_isSub s.toList)
  · rw [if_neg c1] at h
    by_cases c2 : (trimJunk s.toList).take 7 = "http://".toList
    · rw [if_pos c2] at h
      have hp : u.host.toList <+: (trimJunk s.toList).drop 7 := by
        rw [parseAfterScheme_host _ _ _ h]
        exact List.takeWhile_prefix _
      exact (hp.isInfix.trans (List.drop_suffix 7 _).isInfix).trans (trimJunk_isSub s.toList)
    · rw [if_neg c2] at h
      exact absurd h (by simp)

theorem urlparse_prefixed_host_inside (s : String) (u : Url)
    (h : Url.parse ("https://" ++ s) = .ok u) : u.host.toList <:+: s.toList := by
  simp only [Url.parse] at h
  have hfl : ("https://" ++ s).toList = 'h' :: ("ttps://".toList ++ s.toList) := by
    rw [show ("https://" ++ s).toList = "https://".toList ++ s.toList from
      String.data_append _ _]
    rfl
  have htp : trimJunk (("https://" ++ s).toList) <+: ("https://" ++ s).toList := by
    rw [hfl]
    exact trimJunk_prefix_of_head 'h' _ (by decide)
  obtain ⟨r, hr⟩ := htp
  by_cases c1 : (trimJunk (("https://" ++ s).toList)).take 8 = "https://".toList
  · rw [if_pos c1] at h
    have hsplit : "https://".toList ++
        ((trimJunk (("https://" ++ s).toList)).drop 8 ++ r) =
        "https://".toList ++ s.toList := by
      nth_rewrite 1 [← c1]
      rw [← List.append_assoc, List.take_append_drop, hr]
      exact String.data_append _ _
    have hdp : (trimJunk (("https://" ++ s).toList)).drop 8 <+: s.toList :=
      ⟨r, List.append_cancel_left hsplit⟩
    have hp : u.host.toList <+: (trimJunk (("https://" ++ s).toList)).drop 8 := by
      rw [parseAfterScheme_host _ _ _ h]
      exact List.takeWhile_prefix _
    exact (hp.trans hdp).isInfix
  · rw [if_neg c1] at h
    by_cases c2 : (trimJunk (("https://" ++ s).toList)).take 7 = "http://".toList
    · exfalso
      have hsplit : "http://".toList ++
          ((trimJunk (("https://" ++ s).toList)).drop 7 ++ r) =
          "https://".toList ++ s.toList := by
        nth_rewrite 1 [← c2]
        rw [← List.append_assoc, List.take_append_drop, hr]
        exact String.data_append _ _
      simp at hsplit
    · rw [if_neg c2] at h
      exact absurd h (by simp)

theorem ensure_host_inside (s : String) (u : Url)
    (h : ensure_https_scheme s = .ok u) : u.host.toList <:+: s.toList := by
  unfold ensure_https_scheme at h
  cases hp : Url.parse s with
  | ok v =>
    rw [hp] at h
    cases h
    exact urlparse_host_inside s u hp
  | error e =>
    rw [hp] at h
    exact urlparse_prefixed_host_inside s u h

/-! ## Theorem on Vimeo resolution (claim C6) -/

/-- Claim C6: a fragment whose first classified element is an `iframe`
whose normalized `src` has a host containing `"vimeo.com"` is resolved by
normalizing the `src`, taking the final path segment of the normalized
URL as the provider id, requesting JSON from
`https://player.vimeo.com/video/{id}/config`, reading the download URL at
`request.files.progressive.url`, and downloading it to
`vimeo_{id}.mp4` in the institution directory. -/
theorem c6_vimeo_resolution (eng : HtmlEngine) (net : Net) (d : String) (fs : FS)
    (content src : String) (u : Url) (resp resp2 : HttpResp) (j : Json) (vsrc : String)
    (hv : eng.firstVideoSrc content = none)
    (hi : eng.firstIframeSrc content = some (some src))
    (hu : ensure_https_scheme src = .ok u)
    (hhost : "vimeo.com".toList <:+: u.host.toList)
    (hnet : net ("https://player.vimeo.com/video/" ++ lastSegment u.pathSegments ++
      "/config") = .ok resp)
    (hjson : resp.json = .ok j)
    (hurl : ((((j.idx "request").idx "files").idx "progressive").idx "url").asStr =
      some vsrc)
    (habs : fs.fileExists d ("vimeo_" ++ lastSegment u.pathSegments ++ ".mp4") = false)
    (hnet2 : net vsrc = .ok resp2) :
    processFragment eng net d fs content =
      (["https://player.vimeo.com/video/" ++ lastSegment u.pathSegments ++ "/config",
        vsrc],
       .ok (fs.writeFile d ("vimeo_" ++ lastSegment u.pathSegments ++ ".mp4")
         resp2.body)) := by
  have hcont : strContains src "vimeo.com" = true :=
    strContains_of_sub (hhost.trans (ensure_host_inside src u hu))
  simp only [processFragment, hv, hi, hcont, if_true, hu, hnet, hjson, hurl, habs,
    Bool.false_eq_true, if_false, download_video, hnet2]

/-- Claim C6 witness: the theorem applied at the claim's own example —
an iframe fragment with `src="https://player.vimeo.com/video/12345"`
leads to querying `https://player.vimeo.com/video/12345/config` and,
given the mock config body whose `request.files.progressive.url` is
`"https://x/y.mp4"`, to a download stored as `vimeo_12345.mp4`. -/
theorem c6_witness :
    processFragment engEx netEx "Foo_University"
      ⟨true, none, ["Foo_University"], [("Foo_University", "video_1.html", fragEx)]⟩
      fragEx =
    ([cfgUrlEx, mediaUrlEx],
     .ok (FS.writeFile
       ⟨true, none, ["Foo_University"], [("Foo_University", "video_1.html", fragEx)]⟩
       "Foo_University" "vimeo_12345.mp4" "MP4BYTES")) :=
  c6_vimeo_resolution engEx netEx "Foo_University"
    ⟨true, none, ["Foo_University"], [("Foo_University", "video_1.html", fragEx)]⟩
    fragEx "https://player.vimeo.com/video/12345"
    ⟨"https", "player.vimeo.com", "/video/12345", none⟩
    ⟨"CONFIGBODY", .ok cfgJsonEx⟩ ⟨"MP4BYTES", .error ()⟩ cfgJsonEx mediaUrlEx
    rfl rfl rfl ⟨"player.".toList, [], rfl⟩ rfl rfl rfl rfl rfl

/-! ## Theorems on the direct-video branch (claim C4) -/

/-- Claim C4 (counterexample): the claim says the output filename is the
last path segment of the *normalized URL* — so a query string would not
be part of the filename — but the code derives the filename from the raw
`src` string via `Path::new(src).file_name()`.  For
`src = "https://example.com/v/clip.mp4?token=abc"` the normalized URL's
last path segment is `clip.mp4`, yet the fragment's processing stores the
media under `clip.mp4?token=abc` and no file named `clip.mp4` is
created. -/
theorem c4_counterexample :
    pathFileName srcQEx = some "clip.mp4?token=abc" ∧
    (ensure_https_scheme srcQEx).map (fun u => lastSegment u.pathSegments) =
      .ok "clip.mp4" ∧
    processFragment engEx4 netEx4 "D" fsQEx fragQEx =
      ([srcQEx], .ok (fsQEx.writeFile "D" "clip.mp4?token=abc" "QMP4")) ∧
    (fsQEx.writeFile "D" "clip.mp4?token=abc" "QMP4").fileExists "D" "clip.mp4" =
      false :=
  ⟨rfl, rfl, rfl, rfl⟩

/-- Claim C4 (amended): in the direct-video branch, when a fragment
contains a `video` element with a `src` attribute, the `src` is
normalized by the URL normalizer and the media is fetched from the
normalized URL, but the output filename is the final path component of
the *raw* `src` string interpreted as a filesystem path — so any query
string *is* part of the filename — and the media is downloaded to that
filename inside the institution directory. -/
theorem c4_direct_video_amended (eng : HtmlEngine) (net : Net) (d : String)
    (fs : FS) (content src : String) (u : Url) (fname : String) (resp : HttpResp)
    (hv : eng.firstVideoSrc content = some (some src))
    (hu : ensure_https_scheme src = .ok u)
    (hf : pathFileName src = some fname)
    (habs : fs.fileExists d fname = false)
    (hnet : net u.asStr = .ok resp) :
    processFragment eng net d fs content =
      ([u.asStr], .ok (fs.writeFile d fname resp.body)) := by
  simp only [processFragment, hv, hu, hf, habs, Bool.false_eq_true, if_false,
    download_video, hnet]

/-- Claim C4 witness: the amended theorem applied at the query scenario —
the download fetches the normalized URL and stores the body under the
raw last component `clip.mp4?token=abc`. -/
theorem c4_witness :
    processFragment engEx4 netEx4 "D" fsQEx fragQEx =
      ([srcQEx], .ok (fsQEx.writeFile "D" "clip.mp4?token=abc" "QMP4")) :=
  c4_direct_video_amended engEx4 netEx4 "D" fsQEx fragQEx srcQEx
    ⟨"https", "example.com", "/v/clip.mp4", some "token=abc"⟩ "clip.mp4?token=abc"
    ⟨"QMP4", .error ()⟩ rfl rfl rfl rfl rfl

/-! ## Theorems on failure propagation in the download stage (claim C1) -/

/-- Claim C1 (counterexample): the claim says a parse/network/JSON-shape
failure during one fragment's resolution aborts only that fragment and
does not affect sibling fragments or other institutions' fragments.  In
the code every such failure propagates out of the entire
`download_videos` loop via `?` (or a panic): with the failing fragment
present the stage errors having issued *no* request at all — the good
sibling in the same directory and the good fragment of the other
institution are never fetched — whereas without it both are fetched and
written. -/
theorem c1_counterexample :
    (download_videos engEx1 netEx1 fsC1).2 = .error () ∧
    (download_videos engEx1 netEx1 fsC1).1 = [] ∧
    (download_videos engEx1 netEx1 fsC1good).2 =
      .ok ((fsC1good.writeFile "A" "ok.mp4" "OKMP4").writeFile "B" "ok.mp4" "OKMP4") ∧
    (download_videos engEx1 netEx1 fsC1good).1 =
      ["https://h/ok.mp4", "https://h/ok.mp4"] :=
  ⟨rfl, rfl, rfl, rfl⟩

/-- Claim C1 (amended): in the media resolution/download stage, any
parse, network, or JSON-shape failure during one fragment's resolution
aborts the *entire* download stage — the error propagates out of the
per-fragment loop and out of the per-directory loop (and aborts the
run), so the sibling fragments after it and all later institutions'
fragments are left unprocessed, whatever they are. -/
theorem c1_error_aborts_stage (eng : HtmlEngine) (net : Net) (d : String)
    (fs : FS) (c : String) (r : List String)
    (h : processFragment eng net d fs c = (r, .error ())) :
    (∀ rest, processFragments eng net d (c :: rest) fs = (r, .error ())) ∧
    (∀ dirs fs2 r2,
      processFragments eng net d (fragmentFiles fs2 d) fs2 = (r2, .error ()) →
      processDirsDownload eng net (d :: dirs) fs2 = (r2, .error ())) := by
  constructor
  · intro rest
    simp only [processFragments, h]
  · intro dirs fs2 r2 h2
    simp only [processDirsDownload, h2]

/-- Claim C1 witness: the amended theorem applied at the failure
scenario: the failing fragment of directory `A` ends the fragment loop
whatever the sibling list, and ends the directory loop whatever the
remaining directories. -/
theorem c1_witness :
    processFragments engEx1 netEx1 "A" [badFragEx, goodFragEx] fsC1 =
      ([], .error ()) ∧
    processDirsDownload engEx1 netEx1 ["A", "B"] fsC1 = ([], .error ()) := by
  have h : processFragment engEx1 netEx1 "A" fsC1 badFragEx = ([], .error ()) := rfl
  exact ⟨(c1_error_aborts_stage engEx1 netEx1 "A" fsC1 badFragEx [] h).1 [goodFragEx],
    (c1_error_aborts_stage engEx1 netEx1 "A" fsC1 badFragEx [] h).2 ["B"] fsC1 []
      ((c1_error_aborts_stage engEx1 netEx1 "A" fsC1 badFragEx [] h).1 [goodFragEx])⟩

/-! ## Second-run lemmas, stage by stage (claim C2) -/

theorem outputRowStep_ready (net : Net) (fs : FS) (row : String × String)
    (h : rowReadyB fs row = true) : outputRowStep net fs row = ([], fs) := by
  unfold rowReadyB at h
  unfold outputRowStep
  cases hu : ensure_https_scheme row.1 with
  | error e => rfl
  | ok u =>
    rw [hu] at h
    simp only [Bool.and_eq_true] at h
    simp [h.1, h.2]

theorem outputRows_ready (net : Net) (fs : FS) :
    ∀ rows, (∀ row ∈ rows, rowReadyB fs row = true) →
      outputRows net rows fs = ([], fs) := by
  intro rows
  induction rows with
  | nil => intro _; rfl
  | cons row rest ih =>
    intro h
    simp only [outputRows]
    rw [outputRowStep_ready net fs row (h row (by simp))]
    rw [ih (fun r hr => h r (by simp [hr]))]
    rfl

theorem create_output_folders_ready (net : Net) (fs : FS) (content : String)
    (hroot : fs.rootExists = true) (hc : fs.crawler = some content)
    (hrows : ∀ row ∈ decodeCsv content, rowReadyB fs row = true) :
    create_output_folders net fs = ([], .ok fs) := by
  unfold create_output_folders
  rw [hroot]
  simp only [if_true]
  rw [hc]
  simp only [outputRows_ready net fs (decodeCsv content) hrows]

theorem saveFrom_noop (d : String) :
    ∀ (elems : List String) (k : Nat) (fs : FS),
      (∀ i, i < elems.length → fs.fileExists d (fragName (k + i + 1)) = true) →
      saveFrom d k elems fs = fs := by
  intro elems
  induction elems with
  | nil => intro k fs _; rfl
  | cons e rest ih =>
    intro k fs h
    have h0 : fs.fileExists d (fragName (k + 1)) = true := h 0 (by simp)
    simp only [saveFrom, h0, if_true]
    refine ih (k + 1) fs (fun i hi => ?_)
    have hk := h (i + 1) (by simpa using Nat.succ_lt_succ hi)
    rwa [show k + (i + 1) + 1 = (k + 1) + i + 1 from by omega] at hk

theorem processDirsExtract_ready (eng : HtmlEngine) (fs : FS) :
    ∀ ds, (∀ d ∈ ds, dirFragsSavedB eng fs d = true) →
      processDirsExtract eng ds fs = fs := by
  intro ds
  induction ds with
  | nil => intro _; rfl
  | cons d rest ih =>
    intro h
    have hd := h d (by simp)
    unfold dirFragsSavedB at hd
    unfold processDirsExtract
    cases hl : fs.lookupFile d "index.html" with
    | none =>
      simp only [hl]
      exact ih (fun d' hd' => h d' (by simp [hd']))
    | some c =>
      rw [hl] at hd
      have hs : save_video_elements (extract_video_elements eng c) d fs = fs := by
        unfold save_video_elements
        refine saveFrom_noop d _ 0 fs (fun i hi => ?_)
        have hx := List.all_eq_true.mp hd i (List.mem_range.mpr hi)
        simpa using hx
      simp only [hl, hs]
      exact ih (fun d' hd' => h d' (by simp [hd']))

theorem processFragment_ready (eng : HtmlEngine) (net : Net) (fs : FS) (d c : String)
    (h : fragReadyB eng net fs d c = true) :
    processFragment eng net d fs c = (cfgRequestsOfFragment eng c, .ok fs) := by
  unfold fragReadyB at h
  unfold processFragment cfgRequestsOfFragment
  cases hv : eng.firstVideoSrc c with
  | some srcOpt =>
    simp only [hv] at h
    cases srcOpt with
    | some src =>
      cases hu : ensure_https_scheme src with
      | error e => simp [hu] at h
      | ok u =>
        simp only [hu] at h
        cases hf : pathFileName src with
        | none => simp [hf] at h
        | some fn =>
          simp only [hf] at h
          simp [hu, hf, h]
    | none => rfl
  | none =>
    simp only [hv] at h
    cases hi : eng.firstIframeSrc c with
    | none => rfl
    | some srcOpt =>
      simp only [hi] at h
      cases srcOpt with
      | none => rfl
      | some src =>
        by_cases hvc : strContains src "vimeo.com" = true
        · simp only [hvc, if_true] at h ⊢
          cases hu : ensure_https_scheme src with
          | error e => simp [hu] at h
          | ok u =>
            simp only [hu] at h
            cases hn : net ("https://player.vimeo.com/video/" ++
                lastSegment u.pathSegments ++ "/config") with
            | error e => simp [hn] at h
            | ok resp =>
              simp only [hn] at h
              cases hj : resp.json with
              | error e => simp [hj] at h
              | ok j =>
                simp only [hj, Bool.and_eq_true] at h
                obtain ⟨hsome, hex⟩ := h
                obtain ⟨vsrc, hvsrc⟩ := Option.isSome_iff_exists.mp hsome
                simp [hu, hn, hj, hvsrc, hex]
        · have hvc2 : strContains src "vimeo.com" = false := by simpa using hvc
          simp [hvc2]

theorem processFragments_ready (eng : HtmlEngine) (net : Net) (d : String) :
    ∀ (cs : List String) (fs : FS),
      (∀ c ∈ cs, fragReadyB eng net fs d c = true) →
      processFragments eng net d cs fs =
        (cs.flatMap (cfgRequestsOfFragment eng), .ok fs) := by
  intro cs
  induction cs with
  | nil => intro fs _; rfl
  | cons c rest ih =>
    intro fs h
    simp only [processFragments,
      processFragment_ready eng net fs d c (h c (by simp)),
      ih fs (fun x hx => h x (by simp [hx])), List.flatMap_cons]

theorem processDirsDownload_ready (eng : HtmlEngine) (net : Net) :
    ∀ (ds : List String) (fs : FS),
      (∀ d ∈ ds, ∀ c ∈ fragmentFiles fs d, fragReadyB eng net fs d c = true) →
      processDirsDownload eng net ds fs =
        (ds.flatMap (fun d => (fragmentFiles fs d).flatMap (cfgRequestsOfFragment eng)),
         .ok fs) := by
  intro ds
  induction ds with
  | nil => intro fs _; rfl
  | cons d rest ih =>
    intro fs h
    simp only [processDirsDownload,
      processFragments_ready eng net d (fragmentFiles fs d) fs (h d (by simp)),
      ih fs (fun x hx => h x (by simp [hx])), List.flatMap_cons]

/-- Claim C2 (amended): running the pipeline over an output tree in which
every expected artifact is already present (as after a completed,
fully-successful first run, with all external collaborators behaving
identically) creates no new artifacts and overwrites no existing
artifact — the state is returned unchanged — but it is *not*
network-silent: the crawler CSV check, the per-directory `index.html`
check, and the per-fragment filename check short-circuit their work,
while the Vimeo branch issues its config request (and re-reads the JSON
shape) *before* the per-download filename check, so the run issues
exactly one config request per Vimeo fragment and nothing else. -/
theorem c2_second_run_amended (eng : HtmlEngine) (net : Net)
    (inputRows : List (String × String)) (fs : FS) (content : String)
    (hroot : fs.rootExists = true)
    (hc : fs.crawler = some content)
    (hrows : ∀ row ∈ decodeCsv content, rowReadyB fs row = true)
    (hdirs3 : ∀ d ∈ fs.dirs, dirFragsSavedB eng fs d = true)
    (hdirs4 : ∀ d ∈ fs.dirs, ∀ c ∈ fragmentFiles fs d,
      fragReadyB eng net fs d c = true) :
    pipeline eng net inputRows fs = (cfgRequests eng fs, .ok fs) := by
  unfold pipeline
  have h1 : create_crawler_csv inputRows fs = fs := by
    unfold create_crawler_csv
    rw [hc]
    rfl
  simp only [h1, create_output_folders_ready net fs content hroot hc hrows,
    process_videos_in_html, processDirsExtract_ready eng fs fs.dirs hdirs3,
    download_videos, processDirsDownload_ready eng net fs.dirs fs hdirs4,
    cfgRequests, List.nil_append]

/-- Claim C2 (counterexample): over the Vimeo scenario, the first run
from the empty root issues three requests (page, config, media) and
produces the populated tree `fs1Ex`; the second run over `fs1Ex` creates
and overwrites nothing — but it is not request-free: it re-issues the
Vimeo config request, because the config fetch (main.rs line 243)
precedes the download existence check (line 250).  This falsifies the
claim's "issues no network requests". -/
theorem c2_counterexample :
    pipeline engEx netEx rowsEx FS.empty =
      (["https://example.edu/", cfgUrlEx, mediaUrlEx], .ok fs1Ex) ∧
    pipeline engEx netEx rowsEx fs1Ex = ([cfgUrlEx], .ok fs1Ex) ∧
    ([cfgUrlEx] : List String) ≠ [] :=
  ⟨rfl, rfl, by simp⟩

/-- Claim C2 witness: the amended theorem applied at the concrete
populated tree `fs1Ex` produced by the completed first run of the Vimeo
scenario; every readiness hypothesis holds by evaluation, and the second
run returns the tree unchanged with exactly the config request. -/
theorem c2_witness :
    pipeline engEx netEx rowsEx fs1Ex = (cfgRequests engEx fs1Ex, .ok fs1Ex) :=
  c2_second_run_amended engEx netEx rowsEx fs1Ex
    "WEBADDR,INSTNM\nhttps://example.edu/,Foo University\n"
    rfl rfl (by decide) (by decide) (by decide)

end VideoWeb
